import Mathlib

/-!
Verification development for the lipid-name matching and constraint-filtering
engine (src/lipid_data_processing/notation/matching.py, parsing.py,
matching_summary.py).

Embedding conventions:
- A parsed dataset (pandas dataframe with a string index, `ParsedDataset`) is a
  list of (identifier, entry) rows; an entry carries the sixteen string columns
  produced by the parser plus the classification columns.  All cells are
  strings; the parser output has been passed through fillna, so a missing value
  is the empty string.
- Candidate index pairs (`MatchIndexPairs`) are lists of (to-match id,
  match-to id).  Pandas groupby reorders rows by the group key; all results
  proven here are membership / counting statements, which are insensitive to
  that reordering, so the embedding keeps the original row order.
- Row deduplication (pandas drop_duplicates) is modelled with List.dedup; the
  set of surviving rows is the same, only the order of the output may differ.
- Raising Python exceptions (pandas MergeError on a violated one_to_many
  validation, ValueError on concatenating zero objects, ZeroDivisionError) is
  modelled with Except.error.
- Float division in the summary is modelled as exact rational division.
-/

/-- One row of a `ParsedDataset` dataframe: the sixteen logical columns
(ORIGINAL_NAME, PARSED_NAME, STATUS, MESSAGE is irrelevant to matching and is
omitted, LEVEL, the eight classification columns, FA1..FA4, LCB). -/
structure Entry where
  originalName : String
  parsedName : String
  status : String
  level : String
  category : String
  class_ : String
  species : String
  molecularSpecies : String
  snPosition : String
  structureDefined : String
  fullStructure : String
  completeStructure : String
  fa1 : String
  fa2 : String
  fa3 : String
  fa4 : String
  lcb : String
deriving DecidableEq, Repr

/-- A `ParsedDataset`: identifier-keyed rows (the dataframe index is the first
component). -/
abbrev Dataset := List (String × Entry)

/-- A candidate index pair (TO_MATCH_INDEX, MATCH_TO_INDEX). -/
abbrev Pair := String × String

/-- Index lookup (`df.loc[i]` / a right-index merge key): first row whose
identifier equals `i`.  Identifiers are unique in valid datasets. -/
def dsLookup (ds : Dataset) (i : String) : Option Entry :=
  (ds.find? (fun r => r.1 == i)).map (fun r => r.2)

/-- `ParsedDataset._success_df`: rows with STATUS not equal to "failed" and
PARSED_NAME not equal to "UNDEFINED". -/
def successSubset (ds : Dataset) : Dataset :=
  ds.filter (fun r => r.2.status != "failed" && r.2.parsedName != "UNDEFINED")

/-- `ParsedDataset._failure_df`: the complement of the success subset. -/
def failureSubset (ds : Dataset) : Dataset :=
  ds.filter (fun r => r.2.status == "failed" || r.2.parsedName == "UNDEFINED")

/-- `ConstraintsDataset`: the two allow-lists of composition descriptors. -/
structure ConstraintsDataset where
  faConstraints : List String
  lcbConstraints : List String
deriving DecidableEq, Repr

/-- `_remove_fa_bond_alterations`: re.sub of the pattern O- or P- (a single
character O or P followed by a dash), removing every non-overlapping
occurrence anywhere in the string, scanning left to right. -/
def remBA : List Char → List Char
  | [] => []
  | [c] => [c]
  | c1 :: c2 :: rest =>
    if (c1 == 'O' || c1 == 'P') && c2 == '-' then remBA rest
    else c1 :: remBA (c2 :: rest)

/-- Helper for `remOH`: after a semicolon, try to consume one or more digits
followed by OH; return the remainder on success.  Mirrors the regex
";[0-9]+OH": only the maximal digit run can be followed by the literal O. -/
def tryOH (l : List Char) : Option (List Char) :=
  if (l.takeWhile Char.isDigit).isEmpty then none
  else
    match l.dropWhile Char.isDigit with
    | 'O' :: 'H' :: r => some r
    | _ => none

/-- Fuel-driven scanner for `_remove_hydroxylations` (re.sub of ";[0-9]+OH"):
at each position, if the pattern matches, drop it and continue after the
match; otherwise emit one character.  Each step consumes at least one input
character, so fuel equal to the input length suffices. -/
def remOHAux : Nat → List Char → List Char
  | 0, l => l
  | _ + 1, [] => []
  | fuel + 1, c :: rest =>
    if c == ';' then
      match tryOH rest with
      | some rest2 => remOHAux fuel rest2
      | none => ';' :: remOHAux fuel rest
    else c :: remOHAux fuel rest

/-- `_remove_hydroxylations`: remove every occurrence of ";digitsOH". -/
def remOH (l : List Char) : List Char :=
  remOHAux l.length l

/-- FA descriptor normalization used by `_mark_fa_constraint_violations`:
first `_remove_fa_bond_alterations`, then `_remove_hydroxylations`. -/
def normalizeFa (s : String) : String :=
  String.mk (remOH (remBA s.data))

/-- One cell of the per-slot FA constraint mask
(`_mark_fa_constraint_violations`): the normalized descriptor passes if it is
the empty string, the sentinel N/A, the zero-chain descriptor 0:0, or a member
of the FA constraints. -/
def faSlotPasses (faConstraints : List String) (fa : String) : Bool :=
  normalizeFa fa == "" || normalizeFa fa == "N/A" || normalizeFa fa == "0:0"
    || faConstraints.contains (normalizeFa fa)

/-- The four FA slot values of a match-to row, in column order FA1..FA4. -/
def faSlots (e : Entry) : List String :=
  [e.fa1, e.fa2, e.fa3, e.fa4]

/-- `_get_lcb_constraint_filter` for one row: the raw LCB descriptor passes if
empty, N/A, or a member of the LCB constraints (no normalization). -/
def lcbPasses (lcbConstraints : List String) (e : Entry) : Bool :=
  e.lcb == "" || e.lcb == "N/A" || lcbConstraints.contains e.lcb

/-- The per-row component filter (`fa_constraint_masks.all(axis="columns") &
lcb_constraint_filter`): every FA slot passes and the LCB passes. -/
def componentPasses (cons : ConstraintsDataset) (e : Entry) : Bool :=
  (faSlots e).all (faSlotPasses cons.faConstraints) && lcbPasses cons.lcbConstraints e

/-- Whether the match-to side of a candidate pair passes the component filter.
Candidate pairs always reference existing match-to rows (`.loc` would raise on
a missing one); the `none` branch is unreachable in pipeline use. -/
def matchToPassed (cons : ConstraintsDataset) (matchTo : Dataset) (m : String) : Bool :=
  match dsLookup matchTo m with
  | some e => componentPasses cons e
  | none => false

/-- `_get_fa_violations` restricted to one match-to row: the raw (not
normalized) FA slot values at exactly the slots whose mask is False. -/
def faViolationValues (faConstraints : List String) (e : Entry) : List String :=
  (faSlots e).filter (fun v => !(faSlotPasses faConstraints v))

/-- Python-style literal replacement of every non-overlapping occurrence of
`pat` (pandas Series.str.replace with regex disabled, i.e. str.replace).  The
scan emits `rep` at each position where `pat` is a prefix, then continues
after the match.  With an empty `pat`, `rep` is inserted at every character
boundary, as in Python.  Fuel equal to length + 1 suffices: every step
consumes at least one character or ends the scan. -/
def replaceAllAux (pat rep : List Char) : Nat → List Char → List Char
  | 0, l => l
  | _ + 1, [] => if pat.isEmpty then rep else []
  | fuel + 1, c :: rest =>
    if pat.isPrefixOf (c :: rest) then
      if pat.isEmpty then rep ++ c :: replaceAllAux pat rep fuel rest
      else rep ++ replaceAllAux pat rep fuel (rest.drop (pat.length - 1))
    else c :: replaceAllAux pat rep fuel rest

/-- String-level wrapper for `replaceAllAux`. -/
def strReplaceAll (pat rep s : String) : String :=
  String.mk (replaceAllAux pat.data rep.data (s.data.length + 1) s.data)

/-- pandas Series.str.startswith, on list-of-character data. -/
def strStartsWith (s pre : String) : Bool :=
  pre.data.isPrefixOf s.data

/-- `classification_df` column access: the classification value of a match-to
row at a given level name, or `none` when the level name is not one of the
eight classification columns (the `level in classification_df.columns`
membership test of `_match_by_parsed_name`). -/
def classificationValue (lvl : String) (e : Entry) : Option String :=
  match lvl with
  | "CATEGORY" => some e.category
  | "CLASS" => some e.class_
  | "SPECIES" => some e.species
  | "MOLECULAR_SPECIES" => some e.molecularSpecies
  | "SN_POSITION" => some e.snPosition
  | "STRUCTURE_DEFINED" => some e.structureDefined
  | "FULL_STRUCTURE" => some e.fullStructure
  | "COMPLETE_STRUCTURE" => some e.completeStructure
  | _ => none

/-- `_match_by_parsed_name`: for every to-match row whose LEVEL is a
classification column of the match-to dataset, join its PARSED_NAME against
the match-to classification value at that level; every equality yields one
index pair (one-to-many).  The source groups rows by level before joining,
which only permutes the output rows. -/
def matchByParsedName (toMatch matchTo : Dataset) : List Pair :=
  toMatch.flatMap (fun tr =>
    matchTo.filterMap (fun mr =>
      match classificationValue tr.2.level mr.2 with
      | some v => if v == tr.2.parsedName then some (tr.1, mr.1) else none
      | none => none))

/-- `_chk_class_exists`: some to-match PARSED_NAME starts with the class. -/
def chkClassExists (toMatch : Dataset) (lipidClass : String) : Bool :=
  toMatch.any (fun r => strStartsWith r.2.parsedName lipidClass)

/-- The derived dataset built by `_replace_class_with_synonym_and_match`: a
copy of the to-match dataset in which every occurrence of the class in the
PARSED_NAME column is replaced by the synonym; all other columns and the
index are untouched. -/
def renameClassDs (ds : Dataset) (lipidClass synonym : String) : Dataset :=
  ds.map (fun r => (r.1, { r.2 with parsedName := strReplaceAll lipidClass synonym r.2.parsedName }))

/-- `_replace_class_with_synonym_and_match`: run the parsed-name matcher on
the renamed dataset. -/
def replaceClassWithSynonymAndMatch (toMatch matchTo : Dataset) (lipidClass synonym : String) : List Pair :=
  matchByParsedName (renameClassDs toMatch lipidClass synonym) matchTo

/-- `_DEFAULT_SYNONYMS`. -/
def defaultSynonyms : List (String × List String) :=
  [("HexCer", ["GlcCer", "GalCer"])]

/-- Python dict union (defaults | overrides): default keys keep their slot,
overridden values win, new override keys are appended. -/
def mergeSynonymMaps (defaults overrides : List (String × List String)) : List (String × List String) :=
  defaults.map (fun kv => (kv.1, (List.lookup kv.1 overrides).getD kv.2))
    ++ overrides.filter (fun kv => (List.lookup kv.1 defaults).isNone)

/-- `_proc_class_synonyms`: merge the defaults with caller overrides. -/
def procClassSynonyms (classSynonyms : Option (List (String × List String))) : List (String × List String) :=
  mergeSynonymMaps defaultSynonyms (classSynonyms.getD [])

/-- The per-(class, synonym) result frames of
`_match_by_parsed_name_with_synonyms`: one parsed-name match per combination
whose class occurs as a prefix of some to-match PARSED_NAME. -/
def synonymMatchFrames (toMatch matchTo : Dataset)
    (classSynonyms : List (String × List String)) : List (List Pair) :=
  classSynonyms.flatMap (fun cs =>
    if chkClassExists toMatch cs.1 then
      cs.2.map (fun synonym => replaceClassWithSynonymAndMatch toMatch matchTo cs.1 synonym)
    else [])

/-- `_match_by_parsed_name_with_synonyms`: concatenate the per-combination
frames and deduplicate.  The guard is on the list of attempted combinations,
not on the emptiness of the individual results. -/
def matchByParsedNameWithSynonyms (toMatch matchTo : Dataset)
    (classSynonyms : List (String × List String)) : List Pair :=
  if (synonymMatchFrames toMatch matchTo classSynonyms).isEmpty then []
  else (synonymMatchFrames toMatch matchTo classSynonyms).flatten.dedup

/-- `_match_by_original_name`: equality join of ORIGINAL_NAME over all rows of
both datasets (left-merge followed by dropna, i.e. an inner join).  The merge
is validated as one_to_many: duplicate ORIGINAL_NAME values on the to-match
side raise a MergeError. -/
def matchByOriginalName (toMatch matchTo : Dataset) : Except String (List Pair) :=
  if (toMatch.map (fun r => r.2.originalName)).Nodup then
    Except.ok (toMatch.flatMap (fun tr =>
      matchTo.filterMap (fun mr =>
        if mr.2.originalName == tr.2.originalName then some (tr.1, mr.1) else none)))
  else Except.error "MergeError: merge keys are not unique in left dataset; not a one-to-many merge"

/-- `_combine_case_matches`: drop the empty frames, concatenate the rest and
deduplicate.  When all three frames are empty the concatenation of zero
objects raises a ValueError. -/
def combineCaseMatches (generic synonym originalName : List Pair) : Except String (List Pair) :=
  if ([generic, synonym, originalName].filter (fun df => !df.isEmpty)).isEmpty then
    Except.error "ValueError: no objects to concatenate"
  else
    Except.ok ([generic, synonym, originalName].filter (fun df => !df.isEmpty)).flatten.dedup

/-- `_match_cases`: run the three matchers and combine their results. -/
def matchCases (toMatch matchTo : Dataset)
    (classSynonyms : Option (List (String × List String))) : Except String (List Pair) :=
  match matchByOriginalName toMatch matchTo with
  | Except.error e => Except.error e
  | Except.ok originalNamePairs =>
    combineCaseMatches (matchByParsedName toMatch matchTo)
      (matchByParsedNameWithSynonyms toMatch matchTo (procClassSynonyms classSynonyms))
      originalNamePairs

/-- One row of a `MatchesInfo` dataframe: an index pair enriched by left-merge
with both name tables.  A name is `none` when the merge found no row for the
identifier (a NaN cell in the source). -/
structure MatchInfoRow where
  toMatchId : String
  matchToId : String
  toMatchParsedName : Option String
  toMatchOriginalName : Option String
  matchToParsedName : Option String
  matchToOriginalName : Option String
deriving DecidableEq, Repr

/-- The enrichment of one index pair in `_gen_matches_info`. -/
def mkMatchInfoRow (toMatch matchTo : Dataset) (p : Pair) : MatchInfoRow :=
  { toMatchId := p.1
    matchToId := p.2
    toMatchParsedName := (dsLookup toMatch p.1).map Entry.parsedName
    toMatchOriginalName := (dsLookup toMatch p.1).map Entry.originalName
    matchToParsedName := (dsLookup matchTo p.2).map Entry.parsedName
    matchToOriginalName := (dsLookup matchTo p.2).map Entry.originalName }

/-- `_gen_matches_info`: enrich every index pair, keeping pair order. -/
def genMatchesInfo (pairs : List Pair) (toMatch matchTo : Dataset) : List MatchInfoRow :=
  pairs.map (mkMatchInfoRow toMatch matchTo)

/-- Whether a to-match identifier occurs in the index-pair list
(`index.isin(match_index_pairs.to_match_index)` for one label). -/
def isMatched (pairs : List Pair) (i : String) : Bool :=
  pairs.any (fun p => p.1 == i)

/-- `_get_parsed_no_match_lipids`: rows whose PARSED_NAME is nonempty and
whose identifier occurs in no candidate pair.  The source keeps only the two
name columns and drops the index afterwards; the row selection itself, kept
here, is at identifier level. -/
def getParsedNoMatchRows (pairs : List Pair) (toMatch : Dataset) : Dataset :=
  toMatch.filter (fun r => r.2.parsedName != "" && !(isMatched pairs r.1))

/-- `_get_original_name_no_match_lipids`: rows whose PARSED_NAME is empty and
whose identifier occurs in no candidate pair. -/
def getOriginalNameNoMatchRows (pairs : List Pair) (toMatch : Dataset) : Dataset :=
  toMatch.filter (fun r => r.2.parsedName == "" && !(isMatched pairs r.1))

/-- The boolean component filter over the pair list, in pair order
(`component_filter` of `_filter_matches`). -/
def componentFilter (pairs : List Pair) (cons : ConstraintsDataset) (matchTo : Dataset) : List Bool :=
  pairs.map (fun p => matchToPassed cons matchTo p.2)

/-- `_get_constrained_matches_info`: positional boolean selection of the
matches-info rows by the component filter (with the source's early return on
an empty frame). -/
def getConstrainedMatchesInfo (info : List MatchInfoRow) (filterMask : List Bool) : List MatchInfoRow :=
  if info.isEmpty then info
  else (info.zip filterMask).filterMap (fun rb => if rb.2 then some rb.1 else none)

/-- One row of the `FilteredLipids` dataframe: the to-match entry (group key,
dropped from the final frame by reset_index but governing the grouping), its
two names, and the deduplicated unions of violating FA / LCB descriptor
values over all of its candidate pairs. -/
structure FilteredRow where
  toMatchId : String
  parsedName : Option String
  originalName : Option String
  faViolations : List String
  lcbViolations : List String
deriving DecidableEq, Repr

/-- The match-to identifiers of the candidate group of one to-match
identifier (the groupby key of `_get_filtered_lipids`). -/
def groupMatchToIds (pairs : List Pair) (t : String) : List String :=
  pairs.filterMap (fun p => if p.1 == t then some p.2 else none)

/-- `_proc_filter_group`: a group with any passing member is dropped;
otherwise emit one row whose violation lists are the deduplicated unions of
the raw violating FA values (the unique/ravel/dropna of the merged
`_get_fa_violations` columns) and of the failing LCB values. -/
def procFilterGroup (cons : ConstraintsDataset) (toMatch matchTo : Dataset)
    (t : String) (group : List String) : Option FilteredRow :=
  if group.any (fun m => matchToPassed cons matchTo m) then none
  else some
    { toMatchId := t
      parsedName := (dsLookup toMatch t).map Entry.parsedName
      originalName := (dsLookup toMatch t).map Entry.originalName
      faViolations := (group.flatMap (fun m =>
        match dsLookup matchTo m with
        | some e => faViolationValues cons.faConstraints e
        | none => [])).dedup
      lcbViolations := (group.filterMap (fun m =>
        match dsLookup matchTo m with
        | some e => if lcbPasses cons.lcbConstraints e then none else some e.lcb
        | none => none)).dedup }

/-- `_get_filtered_lipids`: group the pairs by to-match identifier and process
each group.  An empty pair list yields the empty frame. -/
def getFilteredLipids (pairs : List Pair) (toMatch matchTo : Dataset)
    (cons : ConstraintsDataset) : List FilteredRow :=
  ((pairs.map Prod.fst).dedup).filterMap
    (fun t => procFilterGroup cons toMatch matchTo t (groupMatchToIds pairs t))

/-- `MatchingResults`: the five output frames of `perform_constrained_match`. -/
structure MatchingResults where
  matchesInfo : List MatchInfoRow
  parsedNoMatch : Dataset
  originalNameNoMatch : Dataset
  constrainedMatchesInfo : List MatchInfoRow
  filteredLipids : List FilteredRow
deriving DecidableEq, Repr

/-- `perform_constrained_match`: match, compile the unfiltered results, and
filter by the component constraints. -/
def performConstrainedMatch (toMatch matchTo : Dataset) (cons : ConstraintsDataset)
    (classSynonyms : Option (List (String × List String))) : Except String MatchingResults :=
  match matchCases toMatch matchTo classSynonyms with
  | Except.error e => Except.error e
  | Except.ok pairs =>
    Except.ok
      { matchesInfo := genMatchesInfo pairs toMatch matchTo
        parsedNoMatch := getParsedNoMatchRows pairs toMatch
        originalNameNoMatch := getOriginalNameNoMatchRows pairs toMatch
        constrainedMatchesInfo :=
          getConstrainedMatchesInfo (genMatchesInfo pairs toMatch matchTo)
            (componentFilter pairs cons matchTo)
        filteredLipids := getFilteredLipids pairs toMatch matchTo cons }

/-- The statistics fields of `MatchingSummary._set_statistics`.  The failure
proportion (a Python float) is modelled as an exact rational. -/
structure MatchingSummaryStats where
  numLipids : Nat
  numParsingFailures : Nat
  numParsedNoMatch : Nat
  numOriginalNameNoMatch : Nat
  numFiltered : Nat
  numFailures : Nat
  failureProportion : ℚ
deriving DecidableEq

/-- `MatchingSummary._set_statistics`: the counts and the failure proportion;
an empty source dataset makes the division raise ZeroDivisionError. -/
def setStatistics (ds : Dataset) (results : MatchingResults) : Except String MatchingSummaryStats :=
  if ds.length = 0 then Except.error "ZeroDivisionError: division by zero"
  else Except.ok
    { numLipids := ds.length
      numParsingFailures := (failureSubset ds).length
      numParsedNoMatch := results.parsedNoMatch.length
      numOriginalNameNoMatch := results.originalNameNoMatch.length
      numFiltered := results.filteredLipids.length
      numFailures := results.parsedNoMatch.length + results.originalNameNoMatch.length
        + results.filteredLipids.length
      failureProportion :=
        ((results.parsedNoMatch.length + results.originalNameNoMatch.length
          + results.filteredLipids.length : ℚ)) / (ds.length : ℚ) }

/-- Exactly one of three alternatives holds. -/
def ExactlyOneOfThree (A B C : Prop) : Prop :=
  (A ∧ ¬ B ∧ ¬ C) ∨ (¬ A ∧ B ∧ ¬ C) ∨ (¬ A ∧ ¬ B ∧ C)

/-- An entry with every column empty, as produced by the formatting step for
absent features (fillna with the empty string). -/
def blankEntry : Entry :=
  { originalName := "", parsedName := "", status := "", level := "", category := ""
    class_ := "", species := "", molecularSpecies := "", snPosition := ""
    structureDefined := "", fullStructure := "", completeStructure := ""
    fa1 := "", fa2 := "", fa3 := "", fa4 := "", lcb := "" }

/-- Concrete to-match entry: a successfully parsed species-level name. -/
def tmEntryW : Entry :=
  { blankEntry with
    originalName := "PC(16:0/18:1)"
    parsedName := "PC 34:1"
    status := "success"
    level := "SPECIES"
    fa1 := "N/A"
    fa2 := "N/A"
    fa3 := "N/A"
    fa4 := "N/A"
    lcb := "N/A" }

/-- Concrete match-to entry whose SPECIES column equals the to-match
PARSED_NAME and whose components satisfy the concrete constraints. -/
def mtEntryW : Entry :=
  { blankEntry with
    originalName := "pc341"
    parsedName := "PC 34:1"
    status := "success"
    level := "MOLECULAR_SPECIES"
    category := "GP"
    class_ := "PC"
    species := "PC 34:1"
    molecularSpecies := "PC 16:0_18:1"
    fa1 := "16:0"
    fa2 := "18:1"
    fa3 := "N/A"
    fa4 := "N/A"
    lcb := "N/A" }

/-- Concrete to-match dataset with one successfully parsed entry. -/
def tmW : Dataset := [("t1", tmEntryW)]

/-- Concrete match-to dataset with one entry matching `tmW` at SPECIES. -/
def mtW : Dataset := [("m1", mtEntryW)]

/-- Concrete constraints satisfied by `mtEntryW`. -/
def consW : ConstraintsDataset := { faConstraints := ["16:0", "18:1"], lcbConstraints := ["18:1;2"] }

/-- Concrete to-match dataset with a single unparsed entry whose original
name has no counterpart, so all three matchers return zero pairs. -/
def tmC2 : Dataset :=
  [("t1", { blankEntry with
    originalName := "Weird Lipid A"
    status := "failed" })]

/-- Concrete match-to dataset sharing nothing with `tmC2`. -/
def mtC2 : Dataset :=
  [("m1", { blankEntry with
    originalName := "Weird Lipid B"
    parsedName := "PC 36:2"
    status := "success"
    level := "SPECIES"
    species := "PC 36:2" })]

/-- An entry that parsed to no defined level: STATUS success but PARSED_NAME
is the UNDEFINED sentinel (a member of the failure subset). -/
def undefEntry : Entry :=
  { blankEntry with
    originalName := "X lipid"
    parsedName := "UNDEFINED"
    status := "success"
    level := "UNDEFINED" }

/-- To-match dataset: the UNDEFINED-parsed entry plus a parse failure whose
original name does match, so the pair list is nonempty and the run returns. -/
def tmC3 : Dataset :=
  [("t1", undefEntry),
   ("t2", { blankEntry with
    originalName := "A"
    status := "failed" })]

/-- Match-to dataset giving an original-name match for "A" only. -/
def mtC3 : Dataset :=
  [("m1", { blankEntry with
    originalName := "A"
    parsedName := "PC 1:0"
    status := "success"
    level := "SPECIES"
    species := "PC 1:0" })]

/-- Match-to dataset whose single entry carries the FA descriptor O-20:0,
whose normalized form 20:0 violates the constraints of `consC4`. -/
def mtC4 : Dataset :=
  [("m1", { blankEntry with
    originalName := "b"
    parsedName := "PC 34:1"
    status := "success"
    level := "SPECIES"
    species := "PC 34:1"
    fa1 := "O-20:0"
    fa2 := "N/A"
    fa3 := "N/A"
    fa4 := "N/A"
    lcb := "N/A" })]

/-- To-match dataset pairing with `mtC4` at SPECIES. -/
def tmC4 : Dataset :=
  [("t1", { blankEntry with
    originalName := "a"
    parsedName := "PC 34:1"
    status := "success"
    level := "SPECIES" })]

/-- Constraints violated by the normalized FA 20:0. -/
def consC4 : ConstraintsDataset := { faConstraints := ["16:0"], lcbConstraints := ["18:1;2"] }

/-- To-match dataset with a single entry whose ORIGINAL_NAME is empty. -/
def tmC6 : Dataset := [("t1", blankEntry)]

/-- Match-to dataset with a single entry whose ORIGINAL_NAME is empty. -/
def mtC6 : Dataset := [("m1", { blankEntry with parsedName := "QQ" })]

/-- To-match dataset with two distinct entries sharing an ORIGINAL_NAME. -/
def tmC10 : Dataset :=
  [("t1", { blankEntry with originalName := "A" }),
   ("t2", { blankEntry with
    originalName := "A"
    parsedName := "x" })]

/-- Projection of a matching run onto the FA-violation lists of the filtered
lipids, for stating concrete results about a run. -/
def runFilteredFaViolations (x : Except String MatchingResults) : List (List String) :=
  match x with
  | Except.ok r => r.filteredLipids.map FilteredRow.faViolations
  | Except.error _ => []

/-- Projection of a matching run onto the parsed-no-match rows. -/
def runParsedNoMatch (x : Except String MatchingResults) : Dataset :=
  match x with
  | Except.ok r => r.parsedNoMatch
  | Except.error _ => []

/-- Projection of a matching run onto the original-name-no-match rows. -/
def runOriginalNameNoMatch (x : Except String MatchingResults) : Dataset :=
  match x with
  | Except.ok r => r.originalNameNoMatch
  | Except.error _ => []

/-- Projection of a matching run onto the unfiltered matches-info rows. -/
def runMatchesInfo (x : Except String MatchingResults) : List MatchInfoRow :=
  match x with
  | Except.ok r => r.matchesInfo
  | Except.error _ => []

/-- A to-match identifier is matched iff some candidate pair carries it. -/
theorem isMatched_iff {pairs : List Pair} {i : String} :
    isMatched pairs i = true ↔ ∃ p ∈ pairs, p.1 = i := by
  simp [isMatched]

/-- Row-selection characterization of `_get_parsed_no_match_lipids`. -/
theorem mem_getParsedNoMatchRows {pairs : List Pair} {tm : Dataset} {i : String} {e : Entry} :
    (i, e) ∈ getParsedNoMatchRows pairs tm ↔
      (i, e) ∈ tm ∧ e.parsedName ≠ "" ∧ isMatched pairs i = false := by
  simp [getParsedNoMatchRows, List.mem_filter]

/-- Row-selection characterization of `_get_original_name_no_match_lipids`. -/
theorem mem_getOriginalNameNoMatchRows {pairs : List Pair} {tm : Dataset} {i : String} {e : Entry} :
    (i, e) ∈ getOriginalNameNoMatchRows pairs tm ↔
      (i, e) ∈ tm ∧ e.parsedName = "" ∧ isMatched pairs i = false := by
  simp [getOriginalNameNoMatchRows, List.mem_filter]

/-- A matches-info row with a given to-match identifier exists iff some
candidate pair carries that identifier. -/
theorem exists_matchesInfo_iff {pairs : List Pair} {tm mt : Dataset} {i : String} :
    (∃ row ∈ genMatchesInfo pairs tm mt, row.toMatchId = i) ↔ ∃ p ∈ pairs, p.1 = i := by
  constructor
  · rintro ⟨row, hrow, hid⟩
    rcases List.mem_map.mp hrow with ⟨p, hp, rfl⟩
    exact ⟨p, hp, hid⟩
  · rintro ⟨p, hp, hid⟩
    exact ⟨mkMatchInfoRow tm mt p, List.mem_map_of_mem _ hp, hid⟩

/-- Matches-info rows are in bijection with the candidate pairs. -/
theorem mem_matchesInfo_pair_iff {pairs : List Pair} {tm mt : Dataset} {i m : String} :
    (∃ row ∈ genMatchesInfo pairs tm mt, row.toMatchId = i ∧ row.matchToId = m) ↔
      (i, m) ∈ pairs := by
  constructor
  · rintro ⟨row, hrow, h1, h2⟩
    rcases List.mem_map.mp hrow with ⟨p, hp, rfl⟩
    have hpe : p = (i, m) := by
      cases p
      simp [mkMatchInfoRow] at h1 h2
      simp [h1, h2]
    exact hpe ▸ hp
  · intro hp
    exact ⟨mkMatchInfoRow tm mt (i, m), List.mem_map_of_mem _ hp, rfl, rfl⟩

/-- A positionally applied boolean mask computed by mapping a predicate is a
filter by that predicate. -/
theorem filterMap_if_eq_map_filter {α β : Type} (l : List α) (f : α → β) (g : α → Bool) :
    (l.filterMap (fun x => if g x then some (f x) else none)) = (l.filter g).map f := by
  induction l with
  | nil => rfl
  | cons x xs ih =>
    by_cases h : g x <;> simp [List.filterMap_cons, List.filter_cons, h, ih]

/-- `_get_constrained_matches_info` keeps exactly the enrichments of the
pairs whose match-to row passes the component filter. -/
theorem constrained_eq_filter (pairs : List Pair) (tm mt : Dataset) (cons : ConstraintsDataset) :
    getConstrainedMatchesInfo (genMatchesInfo pairs tm mt) (componentFilter pairs cons mt)
      = genMatchesInfo (pairs.filter (fun p => matchToPassed cons mt p.2)) tm mt := by
  unfold getConstrainedMatchesInfo componentFilter genMatchesInfo
  cases pairs with
  | nil => simp
  | cons p ps =>
    rw [if_neg (by simp)]
    rw [List.zip_map', List.filterMap_map]
    exact filterMap_if_eq_map_filter (p :: ps) (mkMatchInfoRow tm mt)
      (fun q => matchToPassed cons mt q.2)

/-- A constrained matches-info row with a given to-match identifier exists
iff that identifier has a candidate pair passing the component filter. -/
theorem mem_constrained_id_iff {pairs : List Pair} {tm mt : Dataset}
    {cons : ConstraintsDataset} {i : String} :
    (∃ row ∈ getConstrainedMatchesInfo (genMatchesInfo pairs tm mt)
        (componentFilter pairs cons mt), row.toMatchId = i) ↔
      ∃ m, (i, m) ∈ pairs ∧ matchToPassed cons mt m = true := by
  rw [constrained_eq_filter, exists_matchesInfo_iff]
  constructor
  · rintro ⟨p, hp, hid⟩
    rcases List.mem_filter.mp hp with ⟨hmem, hpass⟩
    cases p
    exact ⟨_, hid ▸ hmem, hpass⟩
  · rintro ⟨m, hm, hpass⟩
    exact ⟨(i, m), List.mem_filter.mpr ⟨hm, hpass⟩, rfl⟩

/-- Membership in the candidate group of a to-match identifier. -/
theorem mem_groupMatchToIds {pairs : List Pair} {t m : String} :
    m ∈ groupMatchToIds pairs t ↔ (t, m) ∈ pairs := by
  unfold groupMatchToIds
  rw [List.mem_filterMap]
  constructor
  · rintro ⟨⟨pa, pb⟩, hp, hif⟩
    split at hif
    · next h =>
      cases hif
      have ht : pa = t := by simpa using h
      subst ht
      exact hp
    · cases hif
  · intro hp
    exact ⟨(t, m), hp, by simp⟩

/-- The any-passed test of a candidate group, in terms of the pair list. -/
theorem group_any_passed {pairs : List Pair} {cons : ConstraintsDataset}
    {mt : Dataset} {t : String} :
    ((groupMatchToIds pairs t).any (fun m => matchToPassed cons mt m) = true) ↔
      ∃ p ∈ pairs, p.1 = t ∧ matchToPassed cons mt p.2 = true := by
  rw [List.any_eq_true]
  constructor
  · rintro ⟨m, hm, hp⟩
    exact ⟨(t, m), mem_groupMatchToIds.mp hm, rfl, hp⟩
  · rintro ⟨⟨pa, pb⟩, hp, h1, h2⟩
    have ht : pa = t := h1
    subst ht
    exact ⟨pb, mem_groupMatchToIds.mpr hp, h2⟩

/-- The to-match identifier of an emitted filtered row is its group key. -/
theorem procFilterGroup_toMatchId {cons : ConstraintsDataset} {tm mt : Dataset}
    {t : String} {group : List String} {fr : FilteredRow}
    (h : procFilterGroup cons tm mt t group = some fr) : fr.toMatchId = t := by
  unfold procFilterGroup at h
  split at h
  · cases h
  · cases h
    rfl

/-- A group with no passing member is not dropped. -/
theorem procFilterGroup_isSome (t : String) {cons : ConstraintsDataset} {tm mt : Dataset}
    {group : List String}
    (h : ¬ (group.any (fun m => matchToPassed cons mt m) = true)) :
    (procFilterGroup cons tm mt t group).isSome = true := by
  unfold procFilterGroup
  rw [if_neg h]
  rfl

/-- A filtered row with a given to-match identifier exists iff that
identifier occurs in some candidate pair and every one of its candidate
pairs fails the component filter. -/
theorem mem_filtered_id_iff {pairs : List Pair} {tm mt : Dataset}
    {cons : ConstraintsDataset} {i : String} :
    (∃ fr ∈ getFilteredLipids pairs tm mt cons, fr.toMatchId = i) ↔
      ((∃ p ∈ pairs, p.1 = i) ∧
        ∀ p ∈ pairs, p.1 = i → matchToPassed cons mt p.2 = false) := by
  unfold getFilteredLipids
  constructor
  · rintro ⟨fr, hfr, hid⟩
    rcases List.mem_filterMap.mp hfr with ⟨t, ht, hsome⟩
    unfold procFilterGroup at hsome
    split at hsome
    · cases hsome
    · next hany =>
      cases hsome
      have hti : t = i := hid
      subst hti
      rw [List.mem_dedup] at ht
      rcases List.mem_map.mp ht with ⟨p, hp, hpt⟩
      refine ⟨⟨p, hp, hpt⟩, fun q hq hqi => ?_⟩
      cases hval : matchToPassed cons mt q.2 with
      | false => rfl
      | true => exact absurd (group_any_passed.mpr ⟨q, hq, hqi, hval⟩) hany
  · rintro ⟨⟨p, hp, hpi⟩, hall⟩
    have hanyf : ¬ ((groupMatchToIds pairs i).any (fun m => matchToPassed cons mt m) = true) := by
      intro hx
      rcases group_any_passed.mp hx with ⟨q, hq, hqi, hqp⟩
      rw [hall q hq hqi] at hqp
      cases hqp
    rcases Option.isSome_iff_exists.mp (procFilterGroup_isSome i hanyf) with ⟨fr, hfr⟩
    refine ⟨fr, List.mem_filterMap.mpr ⟨i, ?_, hfr⟩, procFilterGroup_toMatchId hfr⟩
    rw [List.mem_dedup]
    exact List.mem_map.mpr ⟨p, hp, hpi⟩

/-- Destructuring of a successful `perform_constrained_match` run into its
candidate-pair list and the five output components. -/
theorem performConstrainedMatch_ok {tm mt : Dataset} {cons : ConstraintsDataset}
    {syn : Option (List (String × List String))} {r : MatchingResults}
    (h : performConstrainedMatch tm mt cons syn = Except.ok r) :
    ∃ pairs, matchCases tm mt syn = Except.ok pairs
      ∧ r.matchesInfo = genMatchesInfo pairs tm mt
      ∧ r.parsedNoMatch = getParsedNoMatchRows pairs tm
      ∧ r.originalNameNoMatch = getOriginalNameNoMatchRows pairs tm
      ∧ r.constrainedMatchesInfo =
          getConstrainedMatchesInfo (genMatchesInfo pairs tm mt) (componentFilter pairs cons mt)
      ∧ r.filteredLipids = getFilteredLipids pairs tm mt cons := by
  unfold performConstrainedMatch at h
  cases hm : matchCases tm mt syn with
  | error e => rw [hm] at h; cases h
  | ok pairs =>
    rw [hm] at h
    injection h with h
    subst h
    exact ⟨pairs, rfl, rfl, rfl, rfl, rfl, rfl⟩

/-- Every pair produced by the parsed-name matcher carries the identifier of
an existing to-match row. -/
theorem matchByParsedName_tid {tm mt : Dataset} {p : Pair}
    (hp : p ∈ matchByParsedName tm mt) : ∃ row ∈ tm, row.1 = p.1 := by
  rcases List.mem_flatMap.mp hp with ⟨tr, htr, hmem⟩
  rcases List.mem_filterMap.mp hmem with ⟨mr, hmr, hsome⟩
  refine ⟨tr, htr, ?_⟩
  cases hcv : classificationValue tr.2.level mr.2 with
  | none => rw [hcv] at hsome; cases hsome
  | some v =>
    rw [hcv] at hsome
    have hsome2 : (if (v == tr.2.parsedName) = true then some (tr.1, mr.1) else none) = some p :=
      hsome
    by_cases hbeq : (v == tr.2.parsedName) = true
    · rw [if_pos hbeq] at hsome2
      injection hsome2 with h2
      rw [← h2]
    · rw [if_neg hbeq] at hsome2
      cases hsome2

/-- Every pair produced by the original-name matcher carries the identifier
of an existing to-match row. -/
theorem matchByOriginalName_tid {tm mt : Dataset} {pairs : List Pair} {p : Pair}
    (h : matchByOriginalName tm mt = Except.ok pairs) (hp : p ∈ pairs) :
    ∃ row ∈ tm, row.1 = p.1 := by
  unfold matchByOriginalName at h
  split at h
  · injection h with h
    subst h
    rcases List.mem_flatMap.mp hp with ⟨tr, htr, hmem⟩
    rcases List.mem_filterMap.mp hmem with ⟨mr, hmr, hsome⟩
    refine ⟨tr, htr, ?_⟩
    by_cases hbeq : (mr.2.originalName == tr.2.originalName) = true
    · rw [if_pos hbeq] at hsome
      injection hsome with h2
      rw [← h2]
    · rw [if_neg hbeq] at hsome
      cases hsome
  · cases h

/-- Every pair produced by the synonym matcher carries the identifier of an
existing to-match row (the renamed dataset keeps the index). -/
theorem matchByParsedNameWithSynonyms_tid {tm mt : Dataset}
    {cs : List (String × List String)} {p : Pair}
    (hp : p ∈ matchByParsedNameWithSynonyms tm mt cs) : ∃ row ∈ tm, row.1 = p.1 := by
  unfold matchByParsedNameWithSynonyms at hp
  split at hp
  · cases hp
  · rw [List.mem_dedup] at hp
    rcases List.mem_flatten.mp hp with ⟨df, hdf, hpdf⟩
    unfold synonymMatchFrames at hdf
    rcases List.mem_flatMap.mp hdf with ⟨cs1, hcs1, hdf2⟩
    split at hdf2
    · rcases List.mem_map.mp hdf2 with ⟨synonym, hsyn, rfl⟩
      unfold replaceClassWithSynonymAndMatch at hpdf
      rcases matchByParsedName_tid hpdf with ⟨row1, hrow1, hrid⟩
      unfold renameClassDs at hrow1
      rcases List.mem_map.mp hrow1 with ⟨row0, hrow0, rfl⟩
      exact ⟨row0, hrow0, hrid⟩
    · cases hdf2

/-- Every pair surviving the combiner comes from one of the three frames. -/
theorem combineCaseMatches_sub {a b c : List Pair} {pairs : List Pair} {p : Pair}
    (h : combineCaseMatches a b c = Except.ok pairs) (hp : p ∈ pairs) :
    p ∈ a ∨ p ∈ b ∨ p ∈ c := by
  unfold combineCaseMatches at h
  split at h
  · cases h
  · injection h with h
    subst h
    rw [List.mem_dedup] at hp
    rcases List.mem_flatten.mp hp with ⟨df, hdf, hpdf⟩
    have hdf3 := List.mem_of_mem_filter hdf
    simp only [List.mem_cons, List.mem_singleton] at hdf3
    rcases hdf3 with rfl | rfl | rfl | hfalse
    · exact Or.inl hpdf
    · exact Or.inr (Or.inl hpdf)
    · exact Or.inr (Or.inr hpdf)
    · cases hfalse

/-- Every pair produced by a successful `_match_cases` run carries the
identifier of an existing to-match row. -/
theorem matchCases_tid {tm mt : Dataset} {syn : Option (List (String × List String))}
    {pairs : List Pair} {p : Pair}
    (h : matchCases tm mt syn = Except.ok pairs) (hp : p ∈ pairs) :
    ∃ row ∈ tm, row.1 = p.1 := by
  unfold matchCases at h
  cases ho : matchByOriginalName tm mt with
  | error e => rw [ho] at h; cases h
  | ok orig =>
    rw [ho] at h
    rcases combineCaseMatches_sub h hp with h1 | h2 | h3
    · exact matchByParsedName_tid h1
    · exact matchByParsedNameWithSynonyms_tid h2
    · exact matchByOriginalName_tid ho h3

/-- The two no-match frames partition the unmatched to-match rows (their
selection predicates split on emptiness of PARSED_NAME). -/
theorem no_match_lengths_split (pairs : List Pair) (tm : Dataset) :
    (getParsedNoMatchRows pairs tm).length + (getOriginalNameNoMatchRows pairs tm).length
      = (tm.filter (fun r => !(isMatched pairs r.1))).length := by
  unfold getParsedNoMatchRows getOriginalNameNoMatchRows
  induction tm with
  | nil => rfl
  | cons x xs ih =>
    simp only [bne] at ih ⊢
    cases hb : (x.2.parsedName == "") <;> cases hm : isMatched pairs x.1 <;>
      simp [List.filter_cons, hb, hm] <;> omega

/-- Unmatched and matched rows partition the to-match dataset. -/
theorem matched_lengths_split (pairs : List Pair) (tm : Dataset) :
    (tm.filter (fun r => !(isMatched pairs r.1))).length
      + (tm.filter (fun r => isMatched pairs r.1)).length = tm.length := by
  induction tm with
  | nil => rfl
  | cons x xs ih =>
    cases hm : isMatched pairs x.1 <;> simp [List.filter_cons, hm] <;> omega

/-- The three failure buckets together never exceed the size of the to-match
dataset: the two no-match frames are disjoint subsets of the unmatched rows,
and the filtered frame injects into the matched rows by its group keys. -/
theorem failures_le {tm mt : Dataset} {cons : ConstraintsDataset}
    {syn : Option (List (String × List String))} {pairs : List Pair}
    (hmc : matchCases tm mt syn = Except.ok pairs) :
    (getParsedNoMatchRows pairs tm).length + (getOriginalNameNoMatchRows pairs tm).length
      + (getFilteredLipids pairs tm mt cons).length ≤ tm.length := by
  have hpo := no_match_lengths_split pairs tm
  have hf : (getFilteredLipids pairs tm mt cons).length
      ≤ (tm.filter (fun r => isMatched pairs r.1)).length := by
    have h1 : (getFilteredLipids pairs tm mt cons).length
        ≤ ((pairs.map Prod.fst).dedup).length := List.length_filterMap_le _ _
    have hsub : (pairs.map Prod.fst).dedup
        ⊆ (tm.filter (fun r => isMatched pairs r.1)).map Prod.fst := by
      intro t ht
      rw [List.mem_dedup] at ht
      rcases List.mem_map.mp ht with ⟨p, hp, hpt⟩
      rcases matchCases_tid hmc hp with ⟨row, hrow, hrid⟩
      refine List.mem_map.mpr ⟨row, List.mem_filter.mpr ⟨hrow, ?_⟩, by rw [hrid, hpt]⟩
      exact isMatched_iff.mpr ⟨p, hp, by rw [hrid]⟩
    have h2 : ((pairs.map Prod.fst).dedup).length
        ≤ ((tm.filter (fun r => isMatched pairs r.1)).map Prod.fst).length :=
      (List.subperm_of_subset (List.nodup_dedup _) hsub).length_le
    rw [List.length_map] at h2
    exact le_trans h1 h2
  have htotal := matched_lengths_split pairs tm
  omega

/-- Claim C1: for valid input collections (the parser guarantee that an
entry's STATUS is "failed" exactly when its PARSED_NAME is empty) whose
matching run returns a result, every entry of the to-match success subset
appears in exactly one of the three outcome buckets: it has at least one
accepted (constraint-passing) match, or it is in parsed_no_match, or it is
in filtered — never in more than one and never in none. -/
theorem success_subset_partition (tm mt : Dataset) (cons : ConstraintsDataset)
    (classSynonyms : Option (List (String × List String))) (r : MatchingResults)
    (hvalid : ∀ row ∈ tm, (row.2.status = "failed" ↔ row.2.parsedName = ""))
    (hrun : performConstrainedMatch tm mt cons classSynonyms = Except.ok r)
    (i : String) (e : Entry) (hmem : (i, e) ∈ successSubset tm) :
    ExactlyOneOfThree
      (∃ row ∈ r.constrainedMatchesInfo, row.toMatchId = i)
      ((i, e) ∈ r.parsedNoMatch)
      (∃ fr ∈ r.filteredLipids, fr.toMatchId = i) := by
  rcases performConstrainedMatch_ok hrun with ⟨pairs, hmc, hinfo, hpn, hon, hcons, hfilt⟩
  rcases List.mem_filter.mp hmem with ⟨hmemtm, hpred⟩
  have hstat : e.status ≠ "failed" := by
    have hsp : e.status ≠ "failed" ∧ e.parsedName ≠ "UNDEFINED" := by simpa using hpred
    exact hsp.1
  have hpne : e.parsedName ≠ "" := fun hcontra => hstat ((hvalid (i, e) hmemtm).mpr hcontra)
  rw [hpn, hcons, hfilt]
  unfold ExactlyOneOfThree
  by_cases hm : isMatched pairs i = true
  · have hnB : ¬ ((i, e) ∈ getParsedNoMatchRows pairs tm) := by
      rw [mem_getParsedNoMatchRows]
      rintro ⟨-, -, hfalse⟩
      rw [hm] at hfalse
      cases hfalse
    by_cases hpass : ∃ m, (i, m) ∈ pairs ∧ matchToPassed cons mt m = true
    · refine Or.inl ⟨mem_constrained_id_iff.mpr hpass, hnB, ?_⟩
      rw [mem_filtered_id_iff]
      rintro ⟨-, hall⟩
      rcases hpass with ⟨m, hm2, hp2⟩
      rw [hall (i, m) hm2 rfl] at hp2
      cases hp2
    · refine Or.inr (Or.inr ⟨fun hA => hpass (mem_constrained_id_iff.mp hA), hnB, ?_⟩)
      rw [mem_filtered_id_iff]
      obtain ⟨p, hp, hpt⟩ := isMatched_iff.mp hm
      refine ⟨⟨p, hp, hpt⟩, fun q hq hqt => ?_⟩
      obtain ⟨qa, qb⟩ := q
      have hqa : qa = i := hqt
      subst hqa
      cases hval : matchToPassed cons mt qb with
      | false => rfl
      | true => exact absurd ⟨qb, hq, hval⟩ hpass
  · have hmf : isMatched pairs i = false := by
      cases h2 : isMatched pairs i with
      | false => rfl
      | true => exact absurd h2 hm
    refine Or.inr (Or.inl ⟨?_, mem_getParsedNoMatchRows.mpr ⟨hmemtm, hpne, hmf⟩, ?_⟩)
    · rw [mem_constrained_id_iff]
      rintro ⟨m, hmem2, -⟩
      exact hm (isMatched_iff.mpr ⟨(i, m), hmem2, rfl⟩)
    · rw [mem_filtered_id_iff]
      rintro ⟨⟨p, hp, hpt⟩, -⟩
      exact hm (isMatched_iff.mpr ⟨p, hp, hpt⟩)

/-- Witness for C1: the partition property at a concrete run in which the
single success-subset entry has one accepted match. -/
theorem success_subset_partition_witness :
    ∃ r, performConstrainedMatch tmW mtW consW none = Except.ok r
      ∧ ExactlyOneOfThree
          (∃ row ∈ r.constrainedMatchesInfo, row.toMatchId = "t1")
          (("t1", tmEntryW) ∈ r.parsedNoMatch)
          (∃ fr ∈ r.filteredLipids, fr.toMatchId = "t1") :=
  ⟨_, rfl, success_subset_partition tmW mtW consW none _ (by decide) rfl "t1" tmEntryW (by decide)⟩

/-- Claim C5: a to-match entry with at least one candidate pair that passes
constraint validation never appears in the filtered output. -/
theorem exoneration_property (tm mt : Dataset) (cons : ConstraintsDataset)
    (classSynonyms : Option (List (String × List String))) (r : MatchingResults)
    (hrun : performConstrainedMatch tm mt cons classSynonyms = Except.ok r)
    (i : String)
    (hpass : ∃ row ∈ r.constrainedMatchesInfo, row.toMatchId = i) :
    ¬ ∃ fr ∈ r.filteredLipids, fr.toMatchId = i := by
  rcases performConstrainedMatch_ok hrun with ⟨pairs, hmc, hinfo, hpn, hon, hcons, hfilt⟩
  rw [hcons] at hpass
  rw [hfilt, mem_filtered_id_iff]
  rintro ⟨-, hall⟩
  rcases mem_constrained_id_iff.mp hpass with ⟨m, hm, hp⟩
  rw [hall (i, m) hm rfl] at hp
  cases hp

/-- Witness for C5: the exoneration property at a concrete run with one
accepted match. -/
theorem exoneration_property_witness :
    ∃ r, performConstrainedMatch tmW mtW consW none = Except.ok r
      ∧ (∃ row ∈ r.constrainedMatchesInfo, row.toMatchId = "t1")
      ∧ ¬ ∃ fr ∈ r.filteredLipids, fr.toMatchId = "t1" := by
  refine ⟨_, rfl, by decide, ?_⟩
  exact exoneration_property tmW mtW consW none _ rfl "t1" (by decide)

/-- Counterexample to C3 as stated: a to-match entry whose canonical name is
the UNDEFINED sentinel (hence in the failure subset) and that appears in zero
candidate pairs is reported in parsed_no_match, not in unparsed_no_match
(the no-match split tests emptiness of PARSED_NAME, not the failure-subset
condition). -/
theorem undefined_entry_bucket_counterexample :
    undefEntry.parsedName = "UNDEFINED"
    ∧ Except.isOk (performConstrainedMatch tmC3 mtC3 consW none) = true
    ∧ (runMatchesInfo (performConstrainedMatch tmC3 mtC3 consW none)).all
        (fun row => row.toMatchId != "t1") = true
    ∧ runParsedNoMatch (performConstrainedMatch tmC3 mtC3 consW none) = [("t1", undefEntry)]
    ∧ runOriginalNameNoMatch (performConstrainedMatch tmC3 mtC3 consW none) = [] :=
  ⟨rfl, rfl, rfl, rfl, rfl⟩

/-- Claim C3, amended: a to-match entry whose canonical name is the UNDEFINED
sentinel and that appears in zero candidate pairs is reported in
parsed_no_match and never in unparsed_no_match, because the no-match split is
on emptiness of the canonical name and UNDEFINED is nonempty. -/
theorem undefined_entry_in_parsed_no_match (tm mt : Dataset) (cons : ConstraintsDataset)
    (classSynonyms : Option (List (String × List String))) (r : MatchingResults)
    (hrun : performConstrainedMatch tm mt cons classSynonyms = Except.ok r)
    (i : String) (e : Entry) (hmem : (i, e) ∈ tm)
    (hund : e.parsedName = "UNDEFINED")
    (hnom : ¬ ∃ row ∈ r.matchesInfo, row.toMatchId = i) :
    (i, e) ∈ r.parsedNoMatch ∧ (i, e) ∉ r.originalNameNoMatch := by
  rcases performConstrainedMatch_ok hrun with ⟨pairs, hmc, hinfo, hpn, hon, hcons, hfilt⟩
  rw [hinfo] at hnom
  have hum : isMatched pairs i = false := by
    cases h2 : isMatched pairs i with
    | false => rfl
    | true =>
      rcases isMatched_iff.mp h2 with ⟨p, hp, hpt⟩
      exact absurd (exists_matchesInfo_iff.mpr ⟨p, hp, hpt⟩) hnom
  constructor
  · rw [hpn, mem_getParsedNoMatchRows]
    refine ⟨hmem, ?_, hum⟩
    rw [hund]
    decide
  · rw [hon, mem_getOriginalNameNoMatchRows]
    rintro ⟨-, hempty, -⟩
    rw [hund] at hempty
    exact absurd hempty (by decide)

/-- Witness for the amended C3 at the concrete datasets of the
counterexample. -/
theorem undefined_entry_in_parsed_no_match_witness :
    ∃ r, performConstrainedMatch tmC3 mtC3 consW none = Except.ok r
      ∧ ("t1", undefEntry) ∈ r.parsedNoMatch ∧ ("t1", undefEntry) ∉ r.originalNameNoMatch := by
  refine ⟨_, rfl, ?_⟩
  exact undefined_entry_in_parsed_no_match tmC3 mtC3 consW none _ rfl "t1" undefEntry
    (by decide) rfl (by decide)

/-- Claim C2 (the code raises here): with valid non-empty input collections
for which the three matchers together produce zero candidate pairs, the run
does not return a result — `_combine_case_matches` filters out the three
empty frames and concatenates zero objects, raising ValueError. -/
theorem zero_candidate_concat_error :
    performConstrainedMatch tmC2 mtC2 consW none
      = Except.error "ValueError: no objects to concatenate"
    ∧ tmC2 ≠ [] ∧ mtC2 ≠ [] :=
  ⟨rfl, by decide, by decide⟩

/-- Claim C10: two distinct to-match entries sharing an ORIGINAL_NAME violate
the one_to_many validation of the fallback matcher's merge: the matcher
raises a MergeError instead of producing pairs, and the whole matching run
aborts with that error. -/
theorem duplicate_original_name_aborts (tm mt : Dataset) (cons : ConstraintsDataset)
    (classSynonyms : Option (List (String × List String)))
    (hdup : ¬ (tm.map (fun row => row.2.originalName)).Nodup) :
    (∃ e, matchByOriginalName tm mt = Except.error e)
    ∧ (∃ e, performConstrainedMatch tm mt cons classSynonyms = Except.error e) := by
  have h1 : matchByOriginalName tm mt
      = Except.error "MergeError: merge keys are not unique in left dataset; not a one-to-many merge" := by
    unfold matchByOriginalName
    rw [if_neg hdup]
  have h2 : matchCases tm mt classSynonyms
      = Except.error "MergeError: merge keys are not unique in left dataset; not a one-to-many merge" := by
    unfold matchCases
    rw [h1]
  have h3 : performConstrainedMatch tm mt cons classSynonyms
      = Except.error "MergeError: merge keys are not unique in left dataset; not a one-to-many merge" := by
    unfold performConstrainedMatch
    rw [h2]
  exact ⟨⟨_, h1⟩, ⟨_, h3⟩⟩

/-- Witness for C10 at a concrete to-match dataset with a duplicated
ORIGINAL_NAME. -/
theorem duplicate_original_name_aborts_witness :
    (∃ e, matchByOriginalName tmC10 mtW = Except.error e)
    ∧ (∃ e, performConstrainedMatch tmC10 mtW consW none = Except.error e) :=
  duplicate_original_name_aborts tmC10 mtW consW none (by decide)

/-- Counterexample to C6 as stated: the fallback matcher has no empty-string
exclusion — a to-match entry and a match-to entry whose ORIGINAL_NAME values
are both empty produce a candidate pair. -/
theorem empty_original_name_match_counterexample :
    matchByOriginalName tmC6 mtC6 = Except.ok [("t1", "m1")]
    ∧ blankEntry.originalName = ""
    ∧ tmC6 = [("t1", blankEntry)]
    ∧ (∃ em, ("m1", em) ∈ mtC6 ∧ em.originalName = "") :=
  ⟨rfl, rfl, rfl, ⟨{ blankEntry with parsedName := "QQ" }, by decide, rfl⟩⟩

/-- Claim C6, amended: the fallback matcher produces a candidate pair exactly
when a to-match entry's raw ORIGINAL_NAME equals a match-to entry's
ORIGINAL_NAME, over all entries of both collections (not limited to the
success subset); the empty string joins like any other value. -/
theorem original_name_match_characterization (tm mt : Dataset) (pairs : List Pair)
    (hok : matchByOriginalName tm mt = Except.ok pairs) (t m : String) :
    (t, m) ∈ pairs ↔
      ∃ et em, (t, et) ∈ tm ∧ (m, em) ∈ mt ∧ et.originalName = em.originalName := by
  unfold matchByOriginalName at hok
  split at hok
  · injection hok with hok
    subst hok
    constructor
    · intro hp
      rcases List.mem_flatMap.mp hp with ⟨tr, htr, hmem⟩
      rcases List.mem_filterMap.mp hmem with ⟨mr, hmr, hsome⟩
      by_cases hbeq : (mr.2.originalName == tr.2.originalName) = true
      · rw [if_pos hbeq] at hsome
        injection hsome with h2
        have hta : tr.1 = t := congrArg Prod.fst h2
        have hma : mr.1 = m := congrArg Prod.snd h2
        refine ⟨tr.2, mr.2, ?_, ?_, (beq_iff_eq.mp hbeq).symm⟩
        · rw [← hta]
          exact htr
        · rw [← hma]
          exact hmr
      · rw [if_neg hbeq] at hsome
        cases hsome
    · rintro ⟨et, em, htm, hmm, hname⟩
      refine List.mem_flatMap.mpr ⟨(t, et), htm, List.mem_filterMap.mpr ⟨(m, em), hmm, ?_⟩⟩
      rw [if_pos (beq_iff_eq.mpr hname.symm)]
  · cases hok

/-- Witness for the amended C6 at the empty-name datasets. -/
theorem original_name_match_characterization_witness :
    matchByOriginalName tmC6 mtC6 = Except.ok [("t1", "m1")]
    ∧ ((("t1" : String), ("m1" : String)) ∈ [(("t1" : String), ("m1" : String))]
        ↔ ∃ et em, ("t1", et) ∈ tmC6 ∧ ("m1", em) ∈ mtC6
            ∧ et.originalName = em.originalName) :=
  ⟨rfl, original_name_match_characterization tmC6 mtC6 [("t1", "m1")] rfl "t1" "m1"⟩

/-- Claim C7: FA normalization strips the O- or P- bond alteration and the
;digitsOH hydroxylation suffix on the two quoted examples, and the
descriptors "", N/A and 0:0 pass constraint validation for every constraint
set. -/
theorem fa_normalization_and_sentinels :
    normalizeFa "O-18:0;2OH" = "18:0" ∧ normalizeFa "P-16:0" = "16:0"
    ∧ ∀ faConstraints : List String,
        faSlotPasses faConstraints "" = true
        ∧ faSlotPasses faConstraints "N/A" = true
        ∧ faSlotPasses faConstraints "0:0" = true :=
  ⟨rfl, rfl, fun _ => ⟨rfl, rfl, rfl⟩⟩

/-- Counterexample to C4 as stated: the violation record keeps the raw FA
descriptor O-20:0 of the failing slot, not its normalized form 20:0 that the
constraint check compares against the constraint set. -/
theorem fa_violation_values_counterexample :
    runFilteredFaViolations (performConstrainedMatch tmC4 mtC4 consC4 none) = [["O-20:0"]]
    ∧ Except.isOk (performConstrainedMatch tmC4 mtC4 consC4 none) = true
    ∧ normalizeFa "O-20:0" = "20:0"
    ∧ ("20:0" : String) ∉ (["O-20:0"] : List String) :=
  ⟨rfl, rfl, rfl, by decide⟩

/-- Claim C4, amended: a FilteredEntry's deduplicated FA-violation union
holds exactly the raw (pre-normalization) FA slot values of its candidate
match-to rows at the slots whose normalized form fails the constraint check —
only failing slots are recorded, with the original descriptor text. -/
theorem fa_violation_values_characterization (tm mt : Dataset) (cons : ConstraintsDataset)
    (classSynonyms : Option (List (String × List String))) (r : MatchingResults)
    (hrun : performConstrainedMatch tm mt cons classSynonyms = Except.ok r)
    (fr : FilteredRow) (hfr : fr ∈ r.filteredLipids) (v : String) :
    v ∈ fr.faViolations ↔
      ∃ m e, (∃ row ∈ r.matchesInfo, row.toMatchId = fr.toMatchId ∧ row.matchToId = m)
        ∧ dsLookup mt m = some e ∧ v ∈ faSlots e
        ∧ faSlotPasses cons.faConstraints v = false := by
  rcases performConstrainedMatch_ok hrun with ⟨pairs, hmc, hinfo, hpn, hon, hcons, hfilt⟩
  rw [hinfo]
  rw [hfilt] at hfr
  unfold getFilteredLipids at hfr
  rcases List.mem_filterMap.mp hfr with ⟨t, ht, hsome⟩
  unfold procFilterGroup at hsome
  split at hsome
  · cases hsome
  · cases hsome
    dsimp only
    rw [List.mem_dedup, List.mem_flatMap]
    constructor
    · rintro ⟨m, hmg, hv⟩
      cases hl : dsLookup mt m with
      | none =>
        rw [hl] at hv
        have hv2 : v ∈ ([] : List String) := hv
        cases hv2
      | some e =>
        rw [hl] at hv
        have hv2 : v ∈ faViolationValues cons.faConstraints e := hv
        rcases List.mem_filter.mp hv2 with ⟨hslot, hfail⟩
        refine ⟨m, e, mem_matchesInfo_pair_iff.mpr (mem_groupMatchToIds.mp hmg), hl, hslot, ?_⟩
        simpa using hfail
    · rintro ⟨m, e, hrow, hl, hslot, hfail⟩
      have hmp : (t, m) ∈ pairs := mem_matchesInfo_pair_iff.mp hrow
      refine ⟨m, mem_groupMatchToIds.mpr hmp, ?_⟩
      rw [hl]
      have hv2 : v ∈ faViolationValues cons.faConstraints e :=
        List.mem_filter.mpr ⟨hslot, by simpa using hfail⟩
      exact hv2

/-- Witness for the amended C4 at the O-20:0 scenario. -/
theorem fa_violation_values_characterization_witness :
    ∃ r fr, performConstrainedMatch tmC4 mtC4 consC4 none = Except.ok r
      ∧ fr ∈ r.filteredLipids
      ∧ (("O-20:0" : String) ∈ fr.faViolations ↔
          ∃ m e, (∃ row ∈ r.matchesInfo, row.toMatchId = fr.toMatchId ∧ row.matchToId = m)
            ∧ dsLookup mtC4 m = some e ∧ ("O-20:0" : String) ∈ faSlots e
            ∧ faSlotPasses consC4.faConstraints "O-20:0" = false) := by
  refine ⟨_, ⟨"t1", some "PC 34:1", some "a", ["O-20:0"], []⟩, rfl, by decide, ?_⟩
  exact fa_violation_values_characterization tmC4 mtC4 consC4 none _ rfl _ (by decide) "O-20:0"

/-- Claim C8: the summary computes total failures as the sum of the three
failure-bucket sizes; constructing it over an empty source collection fails
with the division-by-zero error; and over any non-empty source whose run
returned these results, the failure proportion lies in the unit interval. -/
theorem summary_statistics_spec (tm mt : Dataset) (cons : ConstraintsDataset)
    (classSynonyms : Option (List (String × List String))) (r : MatchingResults)
    (stats : MatchingSummaryStats)
    (hrun : performConstrainedMatch tm mt cons classSynonyms = Except.ok r)
    (hstats : setStatistics tm r = Except.ok stats) :
    stats.numFailures = stats.numParsedNoMatch + stats.numOriginalNameNoMatch + stats.numFiltered
    ∧ (∀ results : MatchingResults, ∃ e, setStatistics [] results = Except.error e)
    ∧ 0 ≤ stats.failureProportion ∧ stats.failureProportion ≤ 1 := by
  rcases performConstrainedMatch_ok hrun with ⟨pairs, hmc, hinfo, hpn, hon, hcons, hfilt⟩
  unfold setStatistics at hstats
  split at hstats
  · cases hstats
  · next hne =>
    injection hstats with hstats
    subst hstats
    refine ⟨rfl, fun results => ⟨_, rfl⟩, ?_, ?_⟩
    · dsimp only
      positivity
    · dsimp only
      have hn : 0 < tm.length := Nat.pos_of_ne_zero hne
      have hle : r.parsedNoMatch.length + r.originalNameNoMatch.length
          + r.filteredLipids.length ≤ tm.length := by
        rw [hpn, hon, hfilt]
        exact failures_le hmc
      rw [div_le_one (by exact_mod_cast hn)]
      exact_mod_cast hle

/-- Witness for C8 at the concrete happy-path run. -/
theorem summary_statistics_spec_witness :
    ∃ r stats, performConstrainedMatch tmW mtW consW none = Except.ok r
      ∧ setStatistics tmW r = Except.ok stats
      ∧ (stats.numFailures
            = stats.numParsedNoMatch + stats.numOriginalNameNoMatch + stats.numFiltered
        ∧ (∀ results : MatchingResults, ∃ e, setStatistics [] results = Except.error e)
        ∧ 0 ≤ stats.failureProportion ∧ stats.failureProportion ≤ 1) := by
  refine ⟨_, _, rfl, rfl, ?_⟩
  exact summary_statistics_spec tmW mtW consW none _ _ rfl rfl

/-- Claim C9: the derived collection built for a (class, synonym)
substitution has the same identifiers and row count as the to-match
collection and differs from it only in the PARSED_NAME column, where every
occurrence of the class is textually replaced by the synonym; every other
column is unchanged.  (All pipeline components are pure functions of their
arguments in this embedding, mirroring the source's copy-then-assign.) -/
theorem synonym_rename_only_parsed_name (ds : Dataset) (lipidClass synonym : String)
    (i : String) (e : Entry) (hmem : (i, e) ∈ ds) :
    (renameClassDs ds lipidClass synonym).length = ds.length
    ∧ ∃ e2, (i, e2) ∈ renameClassDs ds lipidClass synonym
      ∧ e2.parsedName = strReplaceAll lipidClass synonym e.parsedName
      ∧ e2.originalName = e.originalName ∧ e2.status = e.status ∧ e2.level = e.level
      ∧ e2.category = e.category ∧ e2.class_ = e.class_ ∧ e2.species = e.species
      ∧ e2.molecularSpecies = e.molecularSpecies ∧ e2.snPosition = e.snPosition
      ∧ e2.structureDefined = e.structureDefined ∧ e2.fullStructure = e.fullStructure
      ∧ e2.completeStructure = e.completeStructure ∧ e2.fa1 = e.fa1 ∧ e2.fa2 = e.fa2
      ∧ e2.fa3 = e.fa3 ∧ e2.fa4 = e.fa4 ∧ e2.lcb = e.lcb := by
  constructor
  · unfold renameClassDs
    simp
  · exact ⟨{ e with parsedName := strReplaceAll lipidClass synonym e.parsedName },
      List.mem_map_of_mem _ hmem, rfl, rfl, rfl, rfl, rfl, rfl, rfl, rfl, rfl, rfl, rfl,
      rfl, rfl, rfl, rfl, rfl, rfl⟩

/-- Witness for C9 at the concrete to-match dataset. -/
theorem synonym_rename_only_parsed_name_witness :
    (renameClassDs tmW "HexCer" "GlcCer").length = tmW.length
    ∧ ∃ e2, ("t1", e2) ∈ renameClassDs tmW "HexCer" "GlcCer"
      ∧ e2.parsedName = strReplaceAll "HexCer" "GlcCer" tmEntryW.parsedName
      ∧ e2.originalName = tmEntryW.originalName ∧ e2.status = tmEntryW.status
      ∧ e2.level = tmEntryW.level
      ∧ e2.category = tmEntryW.category ∧ e2.class_ = tmEntryW.class_
      ∧ e2.species = tmEntryW.species
      ∧ e2.molecularSpecies = tmEntryW.molecularSpecies ∧ e2.snPosition = tmEntryW.snPosition
      ∧ e2.structureDefined = tmEntryW.structureDefined
      ∧ e2.fullStructure = tmEntryW.fullStructure
      ∧ e2.completeStructure = tmEntryW.completeStructure ∧ e2.fa1 = tmEntryW.fa1
      ∧ e2.fa2 = tmEntryW.fa2
      ∧ e2.fa3 = tmEntryW.fa3 ∧ e2.fa4 = tmEntryW.fa4 ∧ e2.lcb = tmEntryW.lcb :=
  synonym_rename_only_parsed_name tmW "HexCer" "GlcCer" "t1" tmEntryW (by decide)
